import Mathlib

/-! # Streaming relay of `server/server.js`

A shallow embedding of the Express server of the chatbot: the note sink
`addNoteToGoogleSheets`, the streaming relay `runStream` and the handler of
`POST /message`.

Everything the server does to the outside (the HTTP response, the Google Sheets
API, the upstream chat service) is recorded, in order, as a list of `Effect`s.
What the outside answers (what `JSON.parse` returns, whether a Sheets call
throws, what the clock reads, which events the upstream stream delivers) is
read from a `World`.
-/

namespace ChatRelay

/-! ## JavaScript values -/

/-- A number that came out of a JSON text, kept as the decimal literal that
denotes it: `(-1)^neg * mant * 10^exp`. -/
structure JSNum where
  neg : Bool
  mant : Nat
  exp : Int
deriving DecidableEq

/-- The values `JSON.parse` can produce.  An object is the list of its own
properties; a property is looked up by the first entry with its key. -/
inductive JSValue where
  | null
  | bool (b : Bool)
  | num (n : JSNum)
  | str (s : String)
  | arr (xs : List JSValue)
  | obj (fields : List (String × JSValue))

/-- Whether the literal denotes the double `0`: its mantissa is zero, or its
value is at most `2^-1075`, half of the smallest positive double, and rounds to
zero (ties to even). -/
def JSNum.isZero (n : JSNum) : Bool :=
  n.mant == 0 || (decide (n.exp < 0) && decide (n.mant * 2 ^ 1075 ≤ 10 ^ (-n.exp).toNat))

/-- JavaScript `ToBoolean` of a value that is not `undefined`. -/
def truthy : JSValue → Bool
  | .null => false
  | .bool b => b
  | .num n => !n.isZero
  | .str s => s != ""
  | .arr _ => true
  | .obj _ => true

/-- Property read `v.k` of a value other than `null`; `none` is `undefined`.
Only an object carries own properties named by a JSON key, and no prototype
defines `title`, `body`, `message` or `threadId`. -/
def JSValue.get (v : JSValue) (k : String) : Option JSValue :=
  match v with
  | .obj fields => fields.lookup k
  | _ => none

mutual
/-- JavaScript `ToString`, as applied by a template literal; `none` is a thrown
`TypeError`.  A plain object prints as `[object Object]` unless an own
property shadows `toString` (a JSON value is never callable, and
`Object.prototype.valueOf` returns the object itself). -/
def JSValue.toStr (numToString : JSNum → String) : JSValue → Option String
  | .null => some "null"
  | .bool b => some (if b then "true" else "false")
  | .num n => some (numToString n)
  | .str s => some s
  | .arr xs => JSValue.joinElems numToString xs
  | .obj fields => JSValue.objStr fields

/-- `Array.prototype.join(",")`: `null` elements print as the empty string. -/
def JSValue.joinElems (numToString : JSNum → String) : List JSValue → Option String
  | [] => some ""
  | [x] => JSValue.elemStr numToString x
  | x :: y :: rest =>
    match JSValue.elemStr numToString x, JSValue.joinElems numToString (y :: rest) with
    | some a, some b => some (a ++ "," ++ b)
    | _, _ => none

/-- One element of a joined array. -/
def JSValue.elemStr (numToString : JSNum → String) : JSValue → Option String
  | .null => some ""
  | .bool b => some (if b then "true" else "false")
  | .num n => some (numToString n)
  | .str s => some s
  | .arr xs => JSValue.joinElems numToString xs
  | .obj fields => JSValue.objStr fields

/-- `ToString` of a plain object with the given own properties. -/
def JSValue.objStr : List (String × JSValue) → Option String
  | fields => if (fields.lookup "toString").isSome then none else some "[object Object]"
end

/-! ## Upstream events -/

/-- The `function_call` member of a streamed delta. -/
structure FunctionCall where
  name : Option String
  arguments : Option String
deriving DecidableEq

/-- The `delta` member of a streamed choice; an absent or `null` member is
`none`. -/
structure Delta where
  function_call : Option FunctionCall
  content : Option String
deriving DecidableEq

/-- One entry of `event.choices`. -/
structure Choice where
  delta : Option Delta
deriving DecidableEq

/-- One chunk of the upstream chat completion stream. -/
structure Event where
  choices : Option (List Choice)
deriving DecidableEq

/-- What iterating the upstream stream gives: the events delivered, and whether
the iteration (or the call that opens the stream) then throws instead of
ending. -/
structure Upstream where
  events : List Event
  fails : Bool
deriving DecidableEq

/-! ## Effects and the outside world -/

/-- The calls the server makes to the outside, console output apart. -/
inductive Effect where
  /-- Call `res.write(text)`. -/
  | write (text : String)
  /-- Call `res.end()`. -/
  | resEnd
  /-- Call `res.status(code).json({ error })`. -/
  | status (code : Nat) (error : String)
  /-- Call `addNoteToGoogleSheets(title, body, timestamp)`. -/
  | addNote (title body : JSValue) (timestamp : String)
  /-- Call `auth.getClient()`. -/
  | getClient
  /-- Call `sheets.spreadsheets.values.get` on `range`. -/
  | valuesGet (range : String)
  /-- Call `sheets.spreadsheets.values.update` of `values` at `range`. -/
  | valuesUpdate (range : String) (values : List (List String))
  /-- Call `sheets.spreadsheets.values.append` of `values` at `range`. -/
  | valuesAppend (range : String) (values : List (List JSValue))
  /-- Call `addMessage(threadId, message)`. -/
  | addMessage (threadId message : JSValue)

/-- How the Google Sheets service answers during one call of the note sink.
`getResult` is `none` when `values.get` throws, else `readResponse.data.values`
(`none` when the member is absent, as for an empty range). -/
structure Sheets where
  authOk : Bool
  getResult : Option (Option (List (List String)))
  updateOk : Bool
  appendOk : Bool
deriving DecidableEq

/-- The environment of one request. -/
structure World where
  /-- The function `JSON.parse`; `none` is a thrown `SyntaxError`. -/
  jsonParse : String → Option JSValue
  /-- The function `Number.prototype.toString`. -/
  numToString : JSNum → String
  /-- The text `formatter.format(new Date())` gives when the note is made. -/
  now : String
  /-- The answers of the Sheets service. -/
  sheets : Sheets
  /-- Whether `openai.beta.threads.messages.create` succeeds. -/
  addMessageOk : JSValue → JSValue → Bool
  /-- The stream `openai.chat.completions.create` opens for a thread and a
  user message. -/
  chat : JSValue → JSValue → Upstream

/-! ## The server -/

/-- The function `getFormattedTimestamp`: the formatted reading of the clock. -/
def getFormattedTimestamp (W : World) : String := W.now

/-- The header row the sink wants in `Sheet2!A1:C1`. -/
def headerRow : List String := ["Title", "Body", "Timestamp"]

/-- The test of `addNoteToGoogleSheets` on the header row it read:
`headers.length === 0 || headers[0] !== 'Title' || headers[1] !== 'Body' ||
headers[2] !== 'Timestamp'`. -/
def headersMissing (headers : List String) : Bool :=
  headers.length == 0 || headers[0]? != some "Title" || headers[1]? != some "Body"
    || headers[2]? != some "Timestamp"

/-- The function `addNoteToGoogleSheets(title, body, timestamp)`: the calls it
makes, and whether it returns (`true`) or rethrows (`false`). -/
def addNoteToGoogleSheets (S : Sheets) (title body : JSValue) (timestamp : String) :
    List Effect × Bool :=
  if !S.authOk then ([.getClient], false) else
  match S.getResult with
  | none => ([.getClient, .valuesGet "Sheet2!A1:C1"], false)
  | some values =>
    -- `readResponse.data.values ? readResponse.data.values[0] : []`
    let headers : Option (List String) :=
      match values with
      | none => some []
      | some rows => rows[0]?
    match headers with
    | none => ([.getClient, .valuesGet "Sheet2!A1:C1"], false)
    | some headers =>
      let setHeaders : List Effect :=
        if headersMissing headers then [.valuesUpdate "Sheet2!A1" [headerRow]] else []
      if headersMissing headers && !S.updateOk then
        ([.getClient, .valuesGet "Sheet2!A1:C1"] ++ setHeaders, false)
      else
        ([.getClient, .valuesGet "Sheet2!A1:C1"] ++ setHeaders
          ++ [.valuesAppend "Sheet2!A2" [[title, body, .str timestamp]]], S.appendOk)

/-- The mutable locals of `runStream`, together with the effects so far. -/
structure RelayState where
  assistantResponse : String
  isFunctionCall : Bool
  chunks : List String
  out : List Effect

/-- The locals at the start of `runStream`. -/
def RelayState.init : RelayState :=
  { assistantResponse := "", isFunctionCall := false, chunks := [], out := [] }

/-- One pass through the body of `for await (const event of stream)`. -/
def step (st : RelayState) (event : Event) : RelayState :=
  match event.choices with
  | none => st
  | some choices =>
    match choices[0]? with
    | none => st
    | some choice =>
      match choice.delta with
      | none => st
      | some delta =>
        match delta.function_call with
        | some fc =>
          { st with isFunctionCall := true, chunks := st.chunks ++ [fc.arguments.getD ""] }
        | none =>
          match delta.content with
          | none => st
          | some content =>
            if content != "" then
              { st with assistantResponse := st.assistantResponse ++ content,
                        out := st.out ++ [.write content] }
            else st

/-- The whole `for await` loop over the delivered events. -/
def consume (st : RelayState) (events : List Event) : RelayState :=
  events.foldl step st

/-- The message of the missing-fields branch. -/
def missingFieldsMessage : String := "Please provide both a title and a body for the note."

/-- The message of the inner `catch`. -/
def processingErrorMessage : String := "Error while processing the function call."

/-- The message of the branch without a function call. -/
def fallbackMessage : String := "Please provide a valid request for note creation."

/-- The confirmation template literal, for the printed title. -/
def confirmationMessage (title : String) : String :=
  "A note with the title \"" ++ title ++ "\" was created successfully and added to Google Sheets."

/-- The body of the inner `try` of `runStream`, with its `catch`: the effects,
and whether control then reaches `res.end()` (`false` after `return`). -/
def functionCallBranch (W : World) (chunks : List String) : List Effect × Bool :=
  let fullArgs := String.join chunks
  match W.jsonParse fullArgs with
  | none => ([.write processingErrorMessage], true)
  -- destructuring `null` throws a `TypeError`
  | some .null => ([.write processingErrorMessage], true)
  | some parsedArgs =>
    match parsedArgs.get "title", parsedArgs.get "body" with
    | some title, some body =>
      if !truthy title || !truthy body then
        ([.write missingFieldsMessage], false)
      else
        let timestamp := getFormattedTimestamp W
        let sink := addNoteToGoogleSheets W.sheets title body timestamp
        let called : List Effect := .addNote title body timestamp :: sink.1
        if sink.2 then
          match title.toStr W.numToString with
          | some printed => (called ++ [.write (confirmationMessage printed)], true)
          | none => (called ++ [.write processingErrorMessage], true)
        else
          (called ++ [.write processingErrorMessage], true)
    -- an `undefined` member is falsy
    | _, _ => ([.write missingFieldsMessage], false)

/-- The function `runStream(threadId, res, userMessage)`, given the stream
that the upstream service opens for `threadId` and `userMessage`: the effects
of the call, in order. -/
def runStream (W : World) (stream : Upstream) : List Effect :=
  let st := consume RelayState.init stream.events
  if stream.fails then
    st.out ++ [.status 500 "Error processing assistant stream."]
  else if st.isFunctionCall && decide (st.chunks.length > 0) then
    let branch := functionCallBranch W st.chunks
    st.out ++ branch.1 ++ (if branch.2 then [.resEnd] else [])
  else
    st.out ++ [.write fallbackMessage, .resEnd]

/-- The handler of `POST /message` on the parsed request body `req.body`;
`none` is the `TypeError` of destructuring `null`, left to Express. -/
def postMessage (W : World) (reqBody : JSValue) : Option (List Effect) :=
  match reqBody with
  | .null => none
  | _ =>
    match reqBody.get "message", reqBody.get "threadId" with
    | some message, some threadId =>
      if !truthy message || !truthy threadId then
        some [.status 400 "Missing message or threadId."]
      else if W.addMessageOk threadId message then
        some (.addMessage threadId message :: runStream W (W.chat threadId message))
      else
        some [.addMessage threadId message, .status 500 "Error adding message."]
    -- an `undefined` member is falsy
    | _, _ => some [.status 400 "Missing message or threadId."]

/-! ## A reader for JSON texts

`World.jsonParse` stands for the built-in `JSON.parse`.  To run the server on
concrete fragments, `jsonParse` below reads the JSON grammar (ECMA-404) from
the code points of a text. -/

/-- Drop leading JSON whitespace: space, tab, line feed, carriage return. -/
def skipWs : List Nat → List Nat
  | [] => []
  | c :: rest => if c == 32 || c == 9 || c == 10 || c == 13 then skipWs rest else c :: rest

/-- The value of a hexadecimal digit. -/
def hexVal (c : Nat) : Option Nat :=
  if 48 ≤ c ∧ c ≤ 57 then some (c - 48)
  else if 97 ≤ c ∧ c ≤ 102 then some (c - 87)
  else if 65 ≤ c ∧ c ≤ 70 then some (c - 55)
  else none

/-- The code unit written by four hexadecimal digits. -/
def hex4 (a b c d : Nat) : Option Nat :=
  match hexVal a, hexVal b, hexVal c, hexVal d with
  | some a, some b, some c, some d => some (((a * 16 + b) * 16 + c) * 16 + d)
  | _, _, _, _ => none

/-- Read a string after its opening quote, up to the closing quote; `acc`
holds the characters read so far, last first.  A surrogate escape that is not
half of a pair has no `Char`, and is refused. -/
def parseString : Nat → List Nat → List Char → Option (String × List Nat)
  | 0, _, _ => none
  | _ + 1, [], _ => none
  | fuel + 1, c :: rest, acc =>
    -- closing quote
    if c == 34 then some (String.mk acc.reverse, rest)
    -- backslash
    else if c == 92 then
      match rest with
      | 34 :: r => parseString fuel r (Char.ofNat 34 :: acc)
      | 92 :: r => parseString fuel r (Char.ofNat 92 :: acc)
      | 47 :: r => parseString fuel r (Char.ofNat 47 :: acc)
      | 98 :: r => parseString fuel r (Char.ofNat 8 :: acc)
      | 102 :: r => parseString fuel r (Char.ofNat 12 :: acc)
      | 110 :: r => parseString fuel r (Char.ofNat 10 :: acc)
      | 114 :: r => parseString fuel r (Char.ofNat 13 :: acc)
      | 116 :: r => parseString fuel r (Char.ofNat 9 :: acc)
      | 117 :: a :: b :: c :: d :: r =>
        match hex4 a b c d with
        | none => none
        | some hi =>
          if 0xD800 ≤ hi ∧ hi ≤ 0xDBFF then
            match r with
            | 92 :: 117 :: a :: b :: c :: d :: r2 =>
              match hex4 a b c d with
              | some lo =>
                if 0xDC00 ≤ lo ∧ lo ≤ 0xDFFF then
                  parseString fuel r2
                    (Char.ofNat (0x10000 + (hi - 0xD800) * 0x400 + (lo - 0xDC00)) :: acc)
                else none
              | none => none
            | _ => none
          else if 0xDC00 ≤ hi ∧ hi ≤ 0xDFFF then none
          else parseString fuel r (Char.ofNat hi :: acc)
      | _ => none
    -- a control character must be escaped
    else if c < 32 then none
    else parseString fuel rest (Char.ofNat c :: acc)

/-- Read a run of decimal digits: the number they add to `acc`, how many there
are, and the rest. -/
def parseDigits : List Nat → Nat → Nat → Nat × Nat × List Nat
  | [], acc, n => (acc, n, [])
  | c :: rest, acc, n =>
    if 48 ≤ c ∧ c ≤ 57 then parseDigits rest (acc * 10 + (c - 48)) (n + 1) else (acc, n, c :: rest)

/-- Read the exponent part of a number, if there is one. -/
def parseExponent (cs : List Nat) : Option (Int × List Nat) :=
  match cs with
  | c :: rest =>
    if c == 101 || c == 69 then
      let (negative, rest) :=
        match rest with
        | 45 :: r => (true, r)
        | 43 :: r => (false, r)
        | r => (false, r)
      match parseDigits rest 0 0 with
      | (_, 0, _) => none
      | (e, _, r) => some (if negative then -(e : Int) else (e : Int), r)
    else some (0, cs)
  | [] => some (0, cs)

/-- Read the fraction part of a number, if there is one, after the integer
part `int`: the mantissa and the number of fraction digits. -/
def parseFraction (int : Nat) (cs : List Nat) : Option (Nat × Nat × List Nat) :=
  match cs with
  | 46 :: rest =>
    match parseDigits rest int 0 with
    | (_, 0, _) => none
    | (m, k, r) => some (m, k, r)
  | _ => some (int, 0, cs)

/-- Read a number: `-? (0 | [1-9][0-9]*) (. [0-9]+)? ([eE] [+-]? [0-9]+)?`. -/
def parseNumber (cs : List Nat) : Option (JSNum × List Nat) :=
  let (neg, cs) :=
    match cs with
    | 45 :: r => (true, r)
    | r => (false, r)
  let int : Option (Nat × List Nat) :=
    match cs with
    | 48 :: r => some (0, r)
    | c :: _ =>
      if 49 ≤ c ∧ c ≤ 57 then
        match parseDigits cs 0 0 with
        | (i, _, r) => some (i, r)
      else none
    | [] => none
  match int with
  | none => none
  | some (i, r) =>
    match parseFraction i r with
    | none => none
    | some (m, k, r) =>
      match parseExponent r with
      | none => none
      | some (e, r) => some ({ neg := neg, mant := m, exp := e - (k : Int) }, r)

/-- Define property `k` of an object under construction: a key met again keeps
its place and takes the new value. -/
def setProp (fields : List (String × JSValue)) (k : String) (v : JSValue) :
    List (String × JSValue) :=
  match fields with
  | [] => [(k, v)]
  | (k1, v1) :: rest => if k1 == k then (k, v) :: rest else (k1, v1) :: setProp rest k v

mutual
/-- Read one value, with the whitespace before it. -/
def parseValue : Nat → List Nat → Option (JSValue × List Nat)
  | 0, _ => none
  | fuel + 1, cs =>
    match skipWs cs with
    | [] => none
    -- an object
    | 123 :: rest =>
      match skipWs rest with
      | 125 :: r => some (.obj [], r)
      | r =>
        match parseMembers fuel r [] with
        | some (fields, r) => some (.obj fields, r)
        | none => none
    -- an array
    | 91 :: rest =>
      match skipWs rest with
      | 93 :: r => some (.arr [], r)
      | r =>
        match parseElements fuel r [] with
        | some (xs, r) => some (.arr xs, r)
        | none => none
    -- a string
    | 34 :: rest =>
      match parseString (rest.length + 1) rest [] with
      | some (s, r) => some (.str s, r)
      | none => none
    -- `true`, `false`, `null`
    | 116 :: 114 :: 117 :: 101 :: r => some (.bool true, r)
    | 102 :: 97 :: 108 :: 115 :: 101 :: r => some (.bool false, r)
    | 110 :: 117 :: 108 :: 108 :: r => some (.null, r)
    | c :: rest =>
      match parseNumber (c :: rest) with
      | some (n, r) => some (.num n, r)
      | none => none

/-- Read the elements of an array up to its closing bracket. -/
def parseElements : Nat → List Nat → List JSValue → Option (List JSValue × List Nat)
  | 0, _, _ => none
  | fuel + 1, cs, acc =>
    match parseValue fuel cs with
    | none => none
    | some (v, r) =>
      match skipWs r with
      | 44 :: r => parseElements fuel r (acc ++ [v])
      | 93 :: r => some (acc ++ [v], r)
      | _ => none

/-- Read the members of an object up to its closing brace. -/
def parseMembers : Nat → List Nat → List (String × JSValue) →
    Option (List (String × JSValue) × List Nat)
  | 0, _, _ => none
  | fuel + 1, cs, acc =>
    match skipWs cs with
    | 34 :: r =>
      match parseString (r.length + 1) r [] with
      | none => none
      | some (k, r) =>
        match skipWs r with
        | 58 :: r =>
          match parseValue fuel r with
          | none => none
          | some (v, r) =>
            match skipWs r with
            | 44 :: r => parseMembers fuel r (setProp acc k v)
            | 125 :: r => some (setProp acc k v, r)
            | _ => none
        | _ => none
    | _ => none
end

/-- Read a whole text as one JSON value; `none` where `JSON.parse` throws a
`SyntaxError`.  Every call spends one unit of fuel and is preceded by a
character consumed, so twice the length of the text is fuel enough. -/
def jsonParse (text : String) : Option JSValue :=
  let cs := text.data.map Char.toNat
  match parseValue (2 * cs.length + 2) cs with
  | some (v, r) => if (skipWs r).isEmpty then some v else none
  | none => none

/-- A stand-in for `Number.prototype.toString` in the concrete world: exact for
a literal without fraction or negative exponent whose magnitude is at most
`2^53`, a mantissa and an exponent otherwise.  Every theorem below is proved
for an arbitrary `World.numToString`. -/
def numToString (n : JSNum) : String :=
  if n.mant == 0 then "0"
  else if n.exp ≥ 0 then
    (if n.neg then "-" else "") ++ toString (n.mant * 10 ^ n.exp.toNat)
  else
    (if n.neg then "-" else "") ++ toString n.mant ++ "e" ++ toString n.exp

/-! ## Reading a stream the way the specification names its events -/

/-- The delta the loop looks at: `event.choices[0].delta`. -/
def Event.delta (e : Event) : Option Delta :=
  match e.choices with
  | some (choice :: _) => choice.delta
  | _ => none

/-- The argument fragment of a function-call delta: the `arguments` of
`delta.function_call`, or the empty string when it has none. -/
def Event.fragment (e : Event) : Option String :=
  match e.delta with
  | some delta => delta.function_call.map (fun fc => fc.arguments.getD "")
  | none => none

/-- A function-call delta is an event whose delta carries `function_call`. -/
def Event.isFunctionCallDelta (e : Event) : Bool := e.fragment.isSome

/-- The text of a content delta: the `content` of a delta without
`function_call`. -/
def Event.text (e : Event) : Option String :=
  match e.delta with
  | some delta => if delta.function_call.isSome then none else delta.content
  | none => none

/-- A content delta is an event whose delta carries `content` and no
`function_call`. -/
def Event.isContentDelta (e : Event) : Bool := e.text.isSome

/-- The event `FunctionCallDelta(arguments)`. -/
def Event.functionCall (arguments : String) : Event :=
  { choices := some [{ delta := some { function_call := some { name := none, arguments := some arguments },
                                       content := none } }] }

/-- The event `ContentDelta(text)`. -/
def Event.content (text : String) : Event :=
  { choices := some [{ delta := some { function_call := none, content := some text } }] }

/-- The argument fragments of a stream, in arrival order. -/
def fragments (events : List Event) : List String := events.filterMap Event.fragment

/-- The content texts of a stream, in arrival order. -/
def contentTexts (events : List Event) : List String := events.filterMap Event.text

/-- The writes the loop makes for a stream: the non-empty content texts. -/
def contentWrites (events : List Event) : List Effect :=
  ((contentTexts events).filter (fun t => t != "")).map Effect.write

/-- The texts passed to `res.write`, in order. -/
def writes : List Effect → List String
  | [] => []
  | .write text :: rest => text :: writes rest
  | _ :: rest => writes rest

/-- The calls of the note sink, in order. -/
def sinkCalls : List Effect → List (JSValue × JSValue × String)
  | [] => []
  | .addNote title body timestamp :: rest => (title, body, timestamp) :: sinkCalls rest
  | _ :: rest => sinkCalls rest

/-- How many times `res.end()` is called. -/
def endCount : List Effect → Nat
  | [] => 0
  | .resEnd :: rest => endCount rest + 1
  | _ :: rest => endCount rest

/-- What the client and the caller of the handler can observe: the calls on
`res`. -/
def response : List Effect → List Effect
  | [] => []
  | .write text :: rest => .write text :: response rest
  | .resEnd :: rest => .resEnd :: response rest
  | .status code error :: rest => .status code error :: response rest
  | _ :: rest => response rest

/-! ## A concrete world -/

/-- A Sheets service that answers every call, on an empty sheet. -/
def emptySheet : Sheets :=
  { authOk := true, getResult := some none, updateOk := true, appendOk := true }

/-- A world with the JSON reader above, an empty sheet, and an upstream that
accepts every message and answers with one content delta. -/
def sampleWorld : World :=
  { jsonParse := jsonParse
    numToString := numToString
    now := "12/04/2024, 14:30:00"
    sheets := emptySheet
    addMessageOk := fun _ _ => true
    chat := fun _ _ => { events := [Event.content "Hello"], fails := false } }

/-- The function call of the end-to-end scenario, in two fragments. -/
def groceriesEvents : List Event :=
  [Event.functionCall "\x7b\"tit",
   Event.functionCall "le\":\"Groceries\",\"body\":\"buy milk\"\x7d"]

/-- A Sheets service whose authentication fails. -/
def unreachableSheet : Sheets :=
  { authOk := false, getResult := none, updateOk := false, appendOk := false }

/-- The sample world with a note sink that fails. -/
def sinkFailureWorld : World := { sampleWorld with sheets := unreachableSheet }

/-- Content followed by the function call of the end-to-end scenario. -/
def mixedEvents : List Event :=
  [Event.content "Noted. ",
   Event.functionCall "\x7b\"tit",
   Event.content "Saving",
   Event.functionCall "le\":\"Groceries\",\"body\":\"buy milk\"\x7d"]

/-- A request body with a message and a thread. -/
def sampleBody : List (String × JSValue) :=
  [("message", .str "add a note called Groceries saying buy milk"),
   ("threadId", .str "thread_1")]

/-- A function call whose payload has a title and no body. -/
def titleOnlyEvents : List Event :=
  [Event.functionCall "\x7b\"title\":", Event.functionCall "\"Groceries\"\x7d"]

/-- A function call whose payload breaks off: the text is not JSON. -/
def truncatedEvents : List Event :=
  [Event.functionCall "\x7b\"title\":\"X\",", Event.functionCall " \"body\":"]

/-! ## The loop -/

theorem step_out (st : RelayState) (e : Event) :
    (step st e).out = st.out ++ contentWrites [e] := by
  obtain ⟨choices⟩ := e
  cases choices with
  | none => simp [step, contentWrites, contentTexts, Event.text, Event.delta]
  | some cs =>
    cases cs with
    | nil => simp [step, contentWrites, contentTexts, Event.text, Event.delta]
    | cons c rest =>
      obtain ⟨delta⟩ := c
      cases delta with
      | none => simp [step, contentWrites, contentTexts, Event.text, Event.delta]
      | some d =>
        obtain ⟨fc, content⟩ := d
        cases fc with
        | some f => simp [step, contentWrites, contentTexts, Event.text, Event.delta]
        | none =>
          cases content with
          | none => simp [step, contentWrites, contentTexts, Event.text, Event.delta]
          | some t =>
            by_cases ht : t = ""
            · simp [step, contentWrites, contentTexts, Event.text, Event.delta, ht]
            · simp [step, contentWrites, contentTexts, Event.text, Event.delta, ht]

theorem step_chunks (st : RelayState) (e : Event) :
    (step st e).chunks = st.chunks ++ fragments [e] := by
  obtain ⟨choices⟩ := e
  cases choices with
  | none => simp [step, fragments, Event.fragment, Event.delta]
  | some cs =>
    cases cs with
    | nil => simp [step, fragments, Event.fragment, Event.delta]
    | cons c rest =>
      obtain ⟨delta⟩ := c
      cases delta with
      | none => simp [step, fragments, Event.fragment, Event.delta]
      | some d =>
        obtain ⟨fc, content⟩ := d
        cases fc with
        | some f => simp [step, fragments, Event.fragment, Event.delta]
        | none =>
          cases content with
          | none => simp [step, fragments, Event.fragment, Event.delta]
          | some t =>
            by_cases ht : t = ""
            · simp [step, fragments, Event.fragment, Event.delta, ht]
            · simp [step, fragments, Event.fragment, Event.delta, ht]

theorem step_isFunctionCall (st : RelayState) (e : Event) :
    (step st e).isFunctionCall = (st.isFunctionCall || e.isFunctionCallDelta) := by
  obtain ⟨choices⟩ := e
  cases choices with
  | none => simp [step, Event.isFunctionCallDelta, Event.fragment, Event.delta]
  | some cs =>
    cases cs with
    | nil => simp [step, Event.isFunctionCallDelta, Event.fragment, Event.delta]
    | cons c rest =>
      obtain ⟨delta⟩ := c
      cases delta with
      | none => simp [step, Event.isFunctionCallDelta, Event.fragment, Event.delta]
      | some d =>
        obtain ⟨fc, content⟩ := d
        cases fc with
        | some f => simp [step, Event.isFunctionCallDelta, Event.fragment, Event.delta]
        | none =>
          cases content with
          | none => simp [step, Event.isFunctionCallDelta, Event.fragment, Event.delta]
          | some t =>
            by_cases ht : t = ""
            · simp [step, Event.isFunctionCallDelta, Event.fragment, Event.delta, ht]
            · simp [step, Event.isFunctionCallDelta, Event.fragment, Event.delta, ht]

theorem contentWrites_append (xs ys : List Event) :
    contentWrites (xs ++ ys) = contentWrites xs ++ contentWrites ys := by
  simp [contentWrites, contentTexts, List.filterMap_append]

theorem fragments_append (xs ys : List Event) :
    fragments (xs ++ ys) = fragments xs ++ fragments ys := by
  simp [fragments, List.filterMap_append]

theorem consume_out (events : List Event) (st : RelayState) :
    (consume st events).out = st.out ++ contentWrites events := by
  induction events generalizing st with
  | nil => simp [consume, contentWrites, contentTexts]
  | cons e rest ih =>
    have h : consume st (e :: rest) = consume (step st e) rest := rfl
    rw [h, ih, step_out, List.append_assoc, ← contentWrites_append]
    rfl

theorem consume_chunks (events : List Event) (st : RelayState) :
    (consume st events).chunks = st.chunks ++ fragments events := by
  induction events generalizing st with
  | nil => simp [consume, fragments]
  | cons e rest ih =>
    have h : consume st (e :: rest) = consume (step st e) rest := rfl
    rw [h, ih, step_chunks, List.append_assoc, ← fragments_append]
    rfl

theorem consume_isFunctionCall (events : List Event) (st : RelayState) :
    (consume st events).isFunctionCall
      = (st.isFunctionCall || events.any Event.isFunctionCallDelta) := by
  induction events generalizing st with
  | nil => simp [consume]
  | cons e rest ih =>
    have h : consume st (e :: rest) = consume (step st e) rest := rfl
    rw [h, ih, step_isFunctionCall, List.any_cons, Bool.or_assoc]

theorem fragments_eq_nil (events : List Event) :
    fragments events = [] ↔ events.any Event.isFunctionCallDelta = false := by
  induction events with
  | nil => simp [fragments]
  | cons e rest ih =>
    cases hf : e.fragment with
    | none =>
      have : fragments (e :: rest) = fragments rest := by
        simp [fragments, List.filterMap_cons, hf]
      rw [this, ih]
      simp [Event.isFunctionCallDelta, hf]
    | some f =>
      have : fragments (e :: rest) = f :: fragments rest := by
        simp [fragments, List.filterMap_cons, hf]
      rw [this]
      simp [Event.isFunctionCallDelta, hf]

/-- The trace of `runStream` on a stream that ends: the content writes of the
loop, then the function-call branch when a function-call delta was seen, else
the fallback message. -/
theorem runStream_eq (W : World) (events : List Event) :
    runStream W { events := events, fails := false }
      = contentWrites events ++
          (if events.any Event.isFunctionCallDelta then
            (functionCallBranch W (fragments events)).1
              ++ (if (functionCallBranch W (fragments events)).2 then [Effect.resEnd] else [])
          else [Effect.write fallbackMessage, Effect.resEnd]) := by
  unfold runStream
  simp only [consume_out, consume_chunks, consume_isFunctionCall, RelayState.init,
    List.nil_append, Bool.false_or]
  cases hany : events.any Event.isFunctionCallDelta with
  | false => simp
  | true =>
    have hne : fragments events ≠ [] := by
      intro h
      rw [fragments_eq_nil, hany] at h
      exact Bool.noConfusion h
    have hlen : 0 < (fragments events).length := List.length_pos.mpr hne
    simp [hlen, List.append_assoc]

/-! ## Projections of a trace -/

theorem writes_append (xs ys : List Effect) : writes (xs ++ ys) = writes xs ++ writes ys := by
  induction xs with
  | nil => rfl
  | cons x rest ih => cases x <;> simp [writes, ih]

theorem sinkCalls_append (xs ys : List Effect) :
    sinkCalls (xs ++ ys) = sinkCalls xs ++ sinkCalls ys := by
  induction xs with
  | nil => rfl
  | cons x rest ih => cases x <;> simp [sinkCalls, ih]

theorem endCount_append (xs ys : List Effect) :
    endCount (xs ++ ys) = endCount xs + endCount ys := by
  induction xs with
  | nil => simp [endCount]
  | cons x rest ih =>
    cases x
    all_goals simp [endCount, ih]
    all_goals omega

theorem response_append (xs ys : List Effect) :
    response (xs ++ ys) = response xs ++ response ys := by
  induction xs with
  | nil => rfl
  | cons x rest ih => cases x <;> simp [response, ih]

theorem writes_map_write (ts : List String) : writes (ts.map Effect.write) = ts := by
  induction ts with
  | nil => rfl
  | cons t rest ih => simp [writes, ih]

theorem sinkCalls_map_write (ts : List String) : sinkCalls (ts.map Effect.write) = [] := by
  induction ts with
  | nil => rfl
  | cons t rest ih => simp [sinkCalls, ih]

theorem endCount_map_write (ts : List String) : endCount (ts.map Effect.write) = 0 := by
  induction ts with
  | nil => rfl
  | cons t rest ih => simp [endCount, ih]

theorem response_map_write (ts : List String) :
    response (ts.map Effect.write) = ts.map Effect.write := by
  induction ts with
  | nil => rfl
  | cons t rest ih => simp [response, ih]

theorem writes_contentWrites (events : List Event) :
    writes (contentWrites events) = (contentTexts events).filter (fun t => t != "") :=
  writes_map_write _

theorem sinkCalls_contentWrites (events : List Event) : sinkCalls (contentWrites events) = [] :=
  sinkCalls_map_write _

theorem endCount_contentWrites (events : List Event) : endCount (contentWrites events) = 0 :=
  endCount_map_write _

theorem response_contentWrites (events : List Event) :
    response (contentWrites events) = contentWrites events :=
  response_map_write _

/-- The note sink makes no call on `res` and does not call itself. -/
theorem sink_silent (S : Sheets) (title body : JSValue) (timestamp : String) :
    writes (addNoteToGoogleSheets S title body timestamp).1 = [] ∧
    sinkCalls (addNoteToGoogleSheets S title body timestamp).1 = [] ∧
    endCount (addNoteToGoogleSheets S title body timestamp).1 = 0 ∧
    response (addNoteToGoogleSheets S title body timestamp).1 = [] := by
  obtain ⟨authOk, getResult, updateOk, appendOk⟩ := S
  cases authOk <;> cases updateOk <;>
    rcases getResult with _ | _ | _ | ⟨row, more⟩ <;>
    (try cases hm : headersMissing row) <;>
    (try cases hn : headersMissing []) <;>
    simp [addNoteToGoogleSheets, writes, sinkCalls, endCount, response, *]

/-- Joining texts ignores the empty ones. -/
theorem join_filter_nonempty (ts : List String) :
    String.join (ts.filter (fun t => t != "")) = String.join ts := by
  apply String.ext
  simp only [String.data_join]
  induction ts with
  | nil => rfl
  | cons t rest ih =>
    by_cases ht : t = ""
    · simp [ht, ih]
    · simp [ht, ih]

theorem join_append_singleton (ts : List String) (m : String) :
    String.join (ts ++ [m]) = String.join ts ++ m := by
  apply String.ext
  simp [String.data_join]

/-! ## The function-call branch -/

theorem branch_unparsable (W : World) (chunks : List String)
    (hparse : W.jsonParse (String.join chunks) = none) :
    functionCallBranch W chunks = ([Effect.write processingErrorMessage], true) := by
  simp [functionCallBranch, hparse]

theorem branch_missing (W : World) (chunks : List String) (fields : List (String × JSValue))
    (hparse : W.jsonParse (String.join chunks) = some (.obj fields))
    (hmiss : fields.lookup "title" = none ∨ fields.lookup "title" = some (.str "") ∨
      fields.lookup "body" = none ∨ fields.lookup "body" = some (.str "")) :
    functionCallBranch W chunks = ([Effect.write missingFieldsMessage], false) := by
  simp only [functionCallBranch, hparse, JSValue.get]
  rcases hmiss with h | h | h | h
  · simp [h]
  · cases hb : fields.lookup "body" <;> simp [h, truthy]
  · cases ht : fields.lookup "title" <;> simp [h]
  · cases ht : fields.lookup "title" <;> simp [h, truthy]

theorem branch_validated (W : World) (chunks : List String) (fields : List (String × JSValue))
    (title body : JSValue)
    (hparse : W.jsonParse (String.join chunks) = some (.obj fields))
    (htitle : fields.lookup "title" = some title) (ht : truthy title = true)
    (hbody : fields.lookup "body" = some body) (hb : truthy body = true) :
    functionCallBranch W chunks =
      (Effect.addNote title body (getFormattedTimestamp W)
          :: (addNoteToGoogleSheets W.sheets title body (getFormattedTimestamp W)).1
        ++ [Effect.write
            (if (addNoteToGoogleSheets W.sheets title body (getFormattedTimestamp W)).2 then
              match title.toStr W.numToString with
              | some printed => confirmationMessage printed
              | none => processingErrorMessage
            else processingErrorMessage)], true) := by
  simp only [functionCallBranch, hparse, JSValue.get, htitle, hbody, ht, hb]
  cases (addNoteToGoogleSheets W.sheets title body (getFormattedTimestamp W)).2
  · simp
  · cases title.toStr W.numToString <;> simp

/-- Whatever the payload, the function-call branch writes exactly one
message. -/
theorem branch_one_message (W : World) (chunks : List String) :
    ∃ m : String,
      (m = "Please provide both a title and a body for the note."
        ∨ m = "Error while processing the function call."
        ∨ ∃ printed : String, m = "A note with the title \"" ++ printed
            ++ "\" was created successfully and added to Google Sheets.") ∧
      writes ((functionCallBranch W chunks).1
        ++ (if (functionCallBranch W chunks).2 then [Effect.resEnd] else [])) = [m] := by
  cases hparse : W.jsonParse (String.join chunks) with
  | none =>
    exact ⟨_, Or.inr (Or.inl rfl),
      by simp [functionCallBranch, hparse, writes, processingErrorMessage]⟩
  | some v =>
    cases v with
    | null =>
      exact ⟨_, Or.inr (Or.inl rfl),
        by simp [functionCallBranch, hparse, writes, processingErrorMessage]⟩
    | bool b =>
      exact ⟨_, Or.inl rfl,
        by simp [functionCallBranch, hparse, writes, JSValue.get, missingFieldsMessage]⟩
    | num n =>
      exact ⟨_, Or.inl rfl,
        by simp [functionCallBranch, hparse, writes, JSValue.get, missingFieldsMessage]⟩
    | str s =>
      exact ⟨_, Or.inl rfl,
        by simp [functionCallBranch, hparse, writes, JSValue.get, missingFieldsMessage]⟩
    | arr xs =>
      exact ⟨_, Or.inl rfl,
        by simp [functionCallBranch, hparse, writes, JSValue.get, missingFieldsMessage]⟩
    | obj fields =>
      cases ht : fields.lookup "title" with
      | none =>
        exact ⟨_, Or.inl rfl,
          by simp [functionCallBranch, hparse, writes, JSValue.get, ht, missingFieldsMessage]⟩
      | some title =>
        cases hb : fields.lookup "body" with
        | none =>
          exact ⟨_, Or.inl rfl,
            by simp [functionCallBranch, hparse, writes, JSValue.get, ht, hb,
              missingFieldsMessage]⟩
        | some body =>
          by_cases hv : (!truthy title || !truthy body) = true
          · exact ⟨_, Or.inl rfl,
              by simp only [functionCallBranch, hparse, JSValue.get, ht, hb, hv]
                 simp [writes, missingFieldsMessage]⟩
          · obtain ⟨hw, _, _, _⟩ := sink_silent W.sheets title body (getFormattedTimestamp W)
            cases hs : (addNoteToGoogleSheets W.sheets title body
                (getFormattedTimestamp W)).2 with
            | false =>
              exact ⟨_, Or.inr (Or.inl rfl),
                by simp only [functionCallBranch, hparse, JSValue.get, ht, hb, hv, hs]
                   simp [writes, writes_append, hw, processingErrorMessage]⟩
            | true =>
              cases hp : title.toStr W.numToString with
              | none =>
                exact ⟨_, Or.inr (Or.inl rfl),
                  by simp only [functionCallBranch, hparse, JSValue.get, ht, hb, hv, hs, hp]
                     simp [writes, writes_append, hw, processingErrorMessage]⟩
              | some printed =>
                exact ⟨_, Or.inr (Or.inr ⟨printed, rfl⟩),
                  by simp only [functionCallBranch, hparse, JSValue.get, ht, hb, hv, hs, hp]
                     simp [writes, writes_append, hw, confirmationMessage]⟩

/-! ## Streams of one kind -/

theorem text_eq_none_of_functionCall (e : Event) (h : e.isFunctionCallDelta = true) :
    e.text = none := by
  unfold Event.isFunctionCallDelta Event.fragment at h
  unfold Event.text
  cases hd : e.delta with
  | none => rfl
  | some d =>
    rw [hd] at h
    cases hf : d.function_call with
    | none => simp [hf] at h
    | some f => simp [hf]

theorem functionCall_eq_false_of_content (e : Event) (h : e.isContentDelta = true) :
    e.isFunctionCallDelta = false := by
  cases hfc : e.isFunctionCallDelta with
  | false => rfl
  | true =>
    have := text_eq_none_of_functionCall e hfc
    simp [Event.isContentDelta, this] at h

theorem contentWrites_eq_nil (events : List Event)
    (honly : ∀ e ∈ events, e.isFunctionCallDelta = true) : contentWrites events = [] := by
  have : contentTexts events = [] := by
    unfold contentTexts
    rw [List.filterMap_eq_nil_iff]
    intro e he
    exact text_eq_none_of_functionCall e (honly e he)
  simp [contentWrites, this]

theorem any_functionCall_of_exists (events : List Event)
    (hfc : ∃ e ∈ events, e.isFunctionCallDelta = true) :
    events.any Event.isFunctionCallDelta = true := by
  simpa [List.any_eq_true] using hfc

theorem any_functionCall_eq_false (events : List Event)
    (hno : ∀ e ∈ events, e.isFunctionCallDelta = false) :
    events.any Event.isFunctionCallDelta = false := by
  simpa [List.any_eq_false] using hno

/-- The trace on a stream without a function-call delta. -/
theorem runStream_without_functionCall (W : World) (events : List Event)
    (hno : ∀ e ∈ events, e.isFunctionCallDelta = false) :
    runStream W { events := events, fails := false }
      = contentWrites events ++ [Effect.write fallbackMessage, Effect.resEnd] := by
  rw [runStream_eq, any_functionCall_eq_false events hno]
  simp

/-- The trace on a stream with a function-call delta. -/
theorem runStream_with_functionCall (W : World) (events : List Event)
    (hfc : ∃ e ∈ events, e.isFunctionCallDelta = true) :
    runStream W { events := events, fails := false }
      = contentWrites events ++ ((functionCallBranch W (fragments events)).1
          ++ (if (functionCallBranch W (fragments events)).2 then [Effect.resEnd] else [])) := by
  rw [runStream_eq, any_functionCall_of_exists events hfc]
  simp

/-! ## Properties of `runStream` -/

/-- C1: on a stream made only of function-call fragments (at least one) whose
concatenation parses to an object with a non-empty string `title` and a
non-empty string `body`, with a note sink that succeeds, `runStream` calls the
sink exactly once, with that title and that body, and writes exactly one
message, the confirmation for that title; the whole trace is the sink call, the
calls the sink makes, the confirmation and `res.end()`. -/
theorem runStream_creates_note (W : World) (events : List Event)
    (fields : List (String × JSValue)) (title body : String)
    (honly : ∀ e ∈ events, e.isFunctionCallDelta = true)
    (hsome : events ≠ [])
    (hparse : W.jsonParse (String.join (fragments events)) = some (.obj fields))
    (htitle : fields.lookup "title" = some (.str title)) (ht : title ≠ "")
    (hbody : fields.lookup "body" = some (.str body)) (hb : body ≠ "")
    (hsink : (addNoteToGoogleSheets W.sheets (.str title) (.str body)
      (getFormattedTimestamp W)).2 = true) :
    sinkCalls (runStream W { events := events, fails := false })
        = [(.str title, .str body, getFormattedTimestamp W)] ∧
    writes (runStream W { events := events, fails := false })
        = ["A note with the title \"" ++ title
            ++ "\" was created successfully and added to Google Sheets."] ∧
    runStream W { events := events, fails := false }
        = Effect.addNote (.str title) (.str body) (getFormattedTimestamp W)
          :: (addNoteToGoogleSheets W.sheets (.str title) (.str body)
              (getFormattedTimestamp W)).1
          ++ [Effect.write ("A note with the title \"" ++ title
                ++ "\" was created successfully and added to Google Sheets."),
              Effect.resEnd] := by
  have hfc : ∃ e ∈ events, e.isFunctionCallDelta = true := by
    cases events with
    | nil => exact absurd rfl hsome
    | cons e rest => exact ⟨e, List.mem_cons_self e rest, honly e (List.mem_cons_self e rest)⟩
  have htt : truthy (.str title) = true := by simp [truthy, ht]
  have hbt : truthy (.str body) = true := by simp [truthy, hb]
  have hrun := runStream_with_functionCall W events hfc
  rw [branch_validated W (fragments events) fields (.str title) (.str body) hparse htitle htt
    hbody hbt, contentWrites_eq_nil events honly] at hrun
  simp only [hsink, if_true, JSValue.toStr, List.nil_append, confirmationMessage] at hrun
  obtain ⟨hw, hs, _, _⟩ := sink_silent W.sheets (.str title) (.str body) (getFormattedTimestamp W)
  refine ⟨?_, ?_, ?_⟩
  · rw [hrun]
    simp [sinkCalls, sinkCalls_append, hs]
  · rw [hrun]
    simp [writes, writes_append, hw]
  · rw [hrun]
    simp

/-- C1, on the two fragments of the end-to-end scenario: the sink is called
once with `("Groceries", "buy milk", timestamp)` and the confirmation for
`Groceries` is the one message written. -/
theorem runStream_creates_note_witness :
    sinkCalls (runStream sampleWorld { events := groceriesEvents, fails := false })
        = [(.str "Groceries", .str "buy milk", getFormattedTimestamp sampleWorld)] ∧
    writes (runStream sampleWorld { events := groceriesEvents, fails := false })
        = ["A note with the title \"" ++ "Groceries"
            ++ "\" was created successfully and added to Google Sheets."] :=
  have h := runStream_creates_note sampleWorld groceriesEvents
    [("title", .str "Groceries"), ("body", .str "buy milk")] "Groceries" "buy milk"
    (by decide) (by decide) rfl rfl (by decide) rfl (by decide) rfl
  ⟨h.1, h.2.1⟩

/-- C3: on a stream with a function call whose fragments concatenate to a
payload that parses to an object in which `title` or `body` is missing or is
the empty string, `runStream` never calls the note sink, and the one message it
writes after the content is the fixed missing-fields message. -/
theorem runStream_missing_fields (W : World) (events : List Event)
    (fields : List (String × JSValue))
    (hfc : ∃ e ∈ events, e.isFunctionCallDelta = true)
    (hparse : W.jsonParse (String.join (fragments events)) = some (.obj fields))
    (hmiss : fields.lookup "title" = none ∨ fields.lookup "title" = some (.str "") ∨
      fields.lookup "body" = none ∨ fields.lookup "body" = some (.str "")) :
    sinkCalls (runStream W { events := events, fails := false }) = [] ∧
    writes (runStream W { events := events, fails := false })
      = (contentTexts events).filter (fun t => t != "")
          ++ ["Please provide both a title and a body for the note."] := by
  rw [runStream_with_functionCall W events hfc,
    branch_missing W (fragments events) fields hparse hmiss]
  constructor
  · simp [sinkCalls_append, sinkCalls_contentWrites, sinkCalls]
  · simp [writes_append, writes_contentWrites, writes, missingFieldsMessage]

/-- C3, on fragments that concatenate to a payload with a title and no body. -/
theorem runStream_missing_fields_witness :
    sinkCalls (runStream sampleWorld { events := titleOnlyEvents, fails := false }) = [] ∧
    writes (runStream sampleWorld { events := titleOnlyEvents, fails := false })
      = (contentTexts titleOnlyEvents).filter (fun t => t != "")
          ++ ["Please provide both a title and a body for the note."] :=
  runStream_missing_fields sampleWorld titleOnlyEvents [("title", .str "Groceries")]
    (by decide) rfl (Or.inr (Or.inr (Or.inl rfl)))

/-- C4: on a stream with a function call whose fragments concatenate to a
text that `JSON.parse` rejects, `runStream` never calls the note sink, and the
one message it writes after the content is the fixed processing-error
message. -/
theorem runStream_invalid_json (W : World) (events : List Event)
    (hfc : ∃ e ∈ events, e.isFunctionCallDelta = true)
    (hparse : W.jsonParse (String.join (fragments events)) = none) :
    sinkCalls (runStream W { events := events, fails := false }) = [] ∧
    writes (runStream W { events := events, fails := false })
      = (contentTexts events).filter (fun t => t != "")
          ++ ["Error while processing the function call."] := by
  rw [runStream_with_functionCall W events hfc, branch_unparsable W (fragments events) hparse]
  constructor
  · simp [sinkCalls_append, sinkCalls_contentWrites, sinkCalls]
  · simp [writes_append, writes_contentWrites, writes, processingErrorMessage]

/-- C4, on fragments that break off after `"body":`. -/
theorem runStream_invalid_json_witness :
    sinkCalls (runStream sampleWorld { events := truncatedEvents, fails := false }) = [] ∧
    writes (runStream sampleWorld { events := truncatedEvents, fails := false })
      = (contentTexts truncatedEvents).filter (fun t => t != "")
          ++ ["Error while processing the function call."] :=
  runStream_invalid_json sampleWorld truncatedEvents (by decide) rfl

/-- C7: on a stream without a function-call delta, the empty stream included,
`runStream` never calls the note sink, its last write is the fixed fallback
message, and it calls `res.end()` exactly once. -/
theorem runStream_fallback (W : World) (events : List Event)
    (hno : ∀ e ∈ events, e.isFunctionCallDelta = false) :
    sinkCalls (runStream W { events := events, fails := false }) = [] ∧
    (writes (runStream W { events := events, fails := false })).getLast?
        = some "Please provide a valid request for note creation." ∧
    endCount (runStream W { events := events, fails := false }) = 1 := by
  rw [runStream_without_functionCall W events hno]
  refine ⟨?_, ?_, ?_⟩
  · simp [sinkCalls_append, sinkCalls_contentWrites, sinkCalls]
  · simp [writes_append, writes, fallbackMessage]
  · simp [endCount_append, endCount_contentWrites, endCount]

/-- C7, on the empty stream. -/
theorem runStream_fallback_witness :
    sinkCalls (runStream sampleWorld { events := [], fails := false }) = [] ∧
    (writes (runStream sampleWorld { events := [], fails := false })).getLast?
        = some "Please provide a valid request for note creation." ∧
    endCount (runStream sampleWorld { events := [], fails := false }) = 1 :=
  runStream_fallback sampleWorld [] (by decide)

/-- C2, as stated, fails: after the one content fragment `Hi` the relay also
writes the fallback message, so what it writes is more than the fragment
texts. -/
theorem content_only_counterexample :
    writes (runStream sampleWorld { events := [Event.content "Hi"], fails := false })
        = ["Hi", "Please provide a valid request for note creation."] ∧
    String.join (writes (runStream sampleWorld { events := [Event.content "Hi"], fails := false }))
        ≠ String.join (contentTexts [Event.content "Hi"]) := by
  decide

/-- C2, amended: on a stream made only of content deltas, `runStream` writes
the non-empty fragment texts in arrival order, each once, and then the fixed
fallback message; what the response receives is the concatenation of the
fragment texts followed by that message. -/
theorem runStream_content_only (W : World) (events : List Event)
    (honly : ∀ e ∈ events, e.isContentDelta = true) :
    writes (runStream W { events := events, fails := false })
        = (contentTexts events).filter (fun t => t != "")
            ++ ["Please provide a valid request for note creation."] ∧
    String.join (writes (runStream W { events := events, fails := false }))
        = String.join (contentTexts events)
            ++ "Please provide a valid request for note creation." ∧
    (contentTexts events).map some = events.map Event.text := by
  have hno : ∀ e ∈ events, e.isFunctionCallDelta = false :=
    fun e he => functionCall_eq_false_of_content e (honly e he)
  have hw : writes (runStream W { events := events, fails := false })
      = (contentTexts events).filter (fun t => t != "")
          ++ ["Please provide a valid request for note creation."] := by
    rw [runStream_without_functionCall W events hno]
    simp [writes_append, writes_contentWrites, writes, fallbackMessage]
  refine ⟨hw, ?_, ?_⟩
  · rw [hw, join_append_singleton, join_filter_nonempty]
  · clear hw hno
    induction events with
    | nil => rfl
    | cons e rest ih =>
      have he := honly e (List.mem_cons_self e rest)
      have hrest := ih (fun x hx => honly x (List.mem_cons_of_mem e hx))
      unfold Event.isContentDelta at he
      obtain ⟨t, ht⟩ := Option.isSome_iff_exists.mp he
      unfold contentTexts at hrest ⊢
      simp [List.filterMap_cons, ht, hrest]

/-- C2 amended, on three content fragments, one of them empty. -/
theorem runStream_content_only_witness :
    writes (runStream sampleWorld
        { events := [Event.content "Hel", Event.content "", Event.content "lo"], fails := false })
      = ["Hel", "lo", "Please provide a valid request for note creation."] :=
  (runStream_content_only sampleWorld
    [Event.content "Hel", Event.content "", Event.content "lo"] (by decide)).1

/-- C5, as stated, fails: with a note sink that throws on a payload that parsed
and validated, the response is the one of a parse failure, processing-error
message and `res.end()`, so the two outcomes cannot be told apart and the run
completes normally. -/
theorem sink_failure_counterexample :
    (addNoteToGoogleSheets sinkFailureWorld.sheets (.str "Groceries") (.str "buy milk")
        (getFormattedTimestamp sinkFailureWorld)).2 = false ∧
    jsonParse (String.join (fragments truncatedEvents)) = none ∧
    response (runStream sinkFailureWorld { events := groceriesEvents, fails := false })
        = [Effect.write "Error while processing the function call.", Effect.resEnd] ∧
    ¬ (response (runStream sinkFailureWorld { events := groceriesEvents, fails := false })
        ≠ response (runStream sinkFailureWorld { events := truncatedEvents, fails := false })) :=
  ⟨rfl, rfl, rfl, fun h => h rfl⟩

/-- C5, amended: when the note sink throws for a payload that parsed and
validated, `runStream` writes no confirmation: after the content it writes the
fixed processing-error message and calls `res.end()` once, which is the
response it gives when the same fragments fail to parse. -/
theorem runStream_sink_failure (W : World) (events : List Event)
    (fields : List (String × JSValue)) (title body : JSValue)
    (hfc : ∃ e ∈ events, e.isFunctionCallDelta = true)
    (hparse : W.jsonParse (String.join (fragments events)) = some (.obj fields))
    (htitle : fields.lookup "title" = some title) (ht : truthy title = true)
    (hbody : fields.lookup "body" = some body) (hb : truthy body = true)
    (hsink : (addNoteToGoogleSheets W.sheets title body (getFormattedTimestamp W)).2 = false) :
    writes (runStream W { events := events, fails := false })
        = (contentTexts events).filter (fun t => t != "")
            ++ ["Error while processing the function call."] ∧
    response (runStream W { events := events, fails := false })
        = contentWrites events
            ++ [Effect.write "Error while processing the function call.", Effect.resEnd] ∧
    ∀ W2 : World, W2.jsonParse (String.join (fragments events)) = none →
      response (runStream W2 { events := events, fails := false })
        = response (runStream W { events := events, fails := false }) := by
  obtain ⟨hw, _, _, hr⟩ := sink_silent W.sheets title body (getFormattedTimestamp W)
  have hrun := runStream_with_functionCall W events hfc
  rw [branch_validated W (fragments events) fields title body hparse htitle ht hbody hb] at hrun
  simp only [hsink] at hrun
  have hresp : response (runStream W { events := events, fails := false })
      = contentWrites events
          ++ [Effect.write "Error while processing the function call.", Effect.resEnd] := by
    rw [hrun]
    simp [response_append, response_contentWrites, response, hr, processingErrorMessage]
  refine ⟨?_, hresp, ?_⟩
  · rw [hrun]
    simp [writes_append, writes_contentWrites, writes, hw, processingErrorMessage]
  · intro W2 h2
    rw [hresp, runStream_with_functionCall W2 events hfc,
      branch_unparsable W2 (fragments events) h2]
    simp [response_append, response_contentWrites, response, processingErrorMessage]

/-- C5 amended, on the end-to-end fragments with a sink that cannot
authenticate. -/
theorem runStream_sink_failure_witness :
    writes (runStream sinkFailureWorld { events := groceriesEvents, fails := false })
        = (contentTexts groceriesEvents).filter (fun t => t != "")
            ++ ["Error while processing the function call."] :=
  (runStream_sink_failure sinkFailureWorld groceriesEvents
    [("title", .str "Groceries"), ("body", .str "buy milk")] (.str "Groceries")
    (.str "buy milk") (by decide) rfl rfl rfl rfl rfl rfl).1

/-- C6, at the failing input: on a payload with a title and no body the relay
writes the missing-fields message and returns without calling `res.end()`,
whereas on a payload that does not parse it calls `res.end()` once. -/
theorem missing_fields_leaves_response_open :
    runStream sampleWorld { events := titleOnlyEvents, fails := false }
        = [Effect.write "Please provide both a title and a body for the note."] ∧
    endCount (runStream sampleWorld { events := titleOnlyEvents, fails := false }) = 0 ∧
    runStream sampleWorld { events := truncatedEvents, fails := false }
        = [Effect.write "Error while processing the function call.", Effect.resEnd] ∧
    endCount (runStream sampleWorld { events := truncatedEvents, fails := false }) = 1 :=
  ⟨rfl, rfl, rfl, rfl⟩

/-- C10: on a stream with both content deltas and function-call deltas, the
loop has written, after any initial part of the stream, exactly the non-empty
content texts of that part, in order; a content delta is written when it is
consumed and a function-call delta writes nothing; the chunks reassembled are
the function-call arguments in arrival order; and after the stream the relay
writes exactly one more message, which is the confirmation, the missing-fields
message or the processing-error message. -/
theorem runStream_mixed (W : World) (events : List Event)
    (_hcontent : ∃ e ∈ events, e.isContentDelta = true)
    (hfc : ∃ e ∈ events, e.isFunctionCallDelta = true) :
    (∀ seen later : List Event, events = seen ++ later →
      (consume RelayState.init seen).out
        = ((contentTexts seen).filter (fun t => t != "")).map Effect.write) ∧
    (∀ (st : RelayState) (e : Event) (t : String), e.text = some t → t ≠ "" →
      (step st e).out = st.out ++ [Effect.write t]) ∧
    (∀ (st : RelayState) (e : Event), e.isFunctionCallDelta = true →
      (step st e).out = st.out) ∧
    (consume RelayState.init events).chunks = fragments events ∧
    ∃ m : String,
      (m = "Please provide both a title and a body for the note."
        ∨ m = "Error while processing the function call."
        ∨ ∃ printed : String, m = "A note with the title \"" ++ printed
            ++ "\" was created successfully and added to Google Sheets.") ∧
      writes (runStream W { events := events, fails := false })
        = (contentTexts events).filter (fun t => t != "") ++ [m] ∧
      String.join (writes (runStream W { events := events, fails := false }))
        = String.join (contentTexts events) ++ m := by
  refine ⟨?_, ?_, ?_, ?_, ?_⟩
  · intro seen later _
    rw [consume_out]
    simp [RelayState.init, contentWrites]
  · intro st e t ht hne
    rw [step_out]
    simp [contentWrites, contentTexts, ht, hne]
  · intro st e he
    rw [step_out]
    simp [contentWrites, contentTexts, text_eq_none_of_functionCall e he]
  · rw [consume_chunks]
    simp [RelayState.init]
  · have hrun := runStream_with_functionCall W events hfc
    obtain ⟨m, hm, hwm⟩ := branch_one_message W (fragments events)
    have hw : writes (runStream W { events := events, fails := false })
        = (contentTexts events).filter (fun t => t != "") ++ [m] := by
      rw [hrun, writes_append, writes_contentWrites, hwm]
    refine ⟨m, hm, hw, ?_⟩
    rw [hw, join_append_singleton, join_filter_nonempty]

/-- C10, on content interleaved with the fragments of the end-to-end
scenario. -/
theorem runStream_mixed_witness :
    (consume RelayState.init mixedEvents).chunks = fragments mixedEvents :=
  (runStream_mixed sampleWorld mixedEvents (by decide) (by decide)).2.2.2.1

/-! ## The handler of `POST /message` -/

/-- C8: for a request body whose `message` and `threadId` are strings when
present, the handler answers `400` with an error body, and does nothing else,
exactly when `message` or `threadId` is missing or empty; when both are present
and non-empty it calls `addMessage` with them and, once that has succeeded, goes
on with `runStream` on the stream opened for them. -/
theorem postMessage_validates (W : World) (fields : List (String × JSValue))
    (message threadId : Option String)
    (hmessage : fields.lookup "message" = message.map JSValue.str)
    (hthread : fields.lookup "threadId" = threadId.map JSValue.str) :
    (postMessage W (.obj fields) = some [Effect.status 400 "Missing message or threadId."]
      ↔ (message = none ∨ message = some "" ∨ threadId = none ∨ threadId = some "")) ∧
    (∀ m t : String, message = some m → threadId = some t → m ≠ "" → t ≠ "" →
      postMessage W (.obj fields)
        = some (Effect.addMessage (.str t) (.str m) ::
            (if W.addMessageOk (.str t) (.str m) then runStream W (W.chat (.str t) (.str m))
             else [Effect.status 500 "Error adding message."]))) := by
  have hvalid : ∀ m t : String, message = some m → threadId = some t → m ≠ "" → t ≠ "" →
      postMessage W (.obj fields)
        = some (Effect.addMessage (.str t) (.str m) ::
            (if W.addMessageOk (.str t) (.str m) then runStream W (W.chat (.str t) (.str m))
             else [Effect.status 500 "Error adding message."])) := by
    intro m t hm ht hmne htne
    subst hm ht
    simp only [postMessage, JSValue.get, hmessage, hthread, Option.map_some']
    cases W.addMessageOk (.str t) (.str m) <;> simp [truthy, hmne, htne]
  refine ⟨⟨?_, ?_⟩, hvalid⟩
  · intro h400
    cases message with
    | none => exact Or.inl rfl
    | some m =>
      cases threadId with
      | none => exact Or.inr (Or.inr (Or.inl rfl))
      | some t =>
        by_cases hm : m = ""
        · exact Or.inr (Or.inl (by rw [hm]))
        · by_cases ht : t = ""
          · exact Or.inr (Or.inr (Or.inr (by rw [ht])))
          · rw [hvalid m t rfl rfl hm ht] at h400
            simp at h400
  · intro hbad
    simp only [postMessage, JSValue.get, hmessage, hthread]
    rcases hbad with h | h | h | h
    · subst h
      simp
    · subst h
      cases threadId <;> simp [truthy]
    · subst h
      cases message <;> simp
    · subst h
      cases message <;> simp [truthy]

/-- C8, on a body with a message and a thread, in a world whose upstream
accepts the message and answers `Hello`. -/
theorem postMessage_validates_witness :
    postMessage sampleWorld (.obj sampleBody)
      = some (Effect.addMessage (.str "thread_1")
            (.str "add a note called Groceries saying buy milk") ::
          (if sampleWorld.addMessageOk (.str "thread_1")
              (.str "add a note called Groceries saying buy milk")
           then runStream sampleWorld (sampleWorld.chat (.str "thread_1")
              (.str "add a note called Groceries saying buy milk"))
           else [Effect.status 500 "Error adding message."])) :=
  (postMessage_validates sampleWorld sampleBody
    (some "add a note called Groceries saying buy milk") (some "thread_1") rfl rfl).2
    "add a note called Groceries saying buy milk" "thread_1" rfl rfl (by decide) (by decide)

/-! ## The note sink -/

/-- On a row of at most three cells the test of the sink fails exactly for the
header row. -/
theorem headersMissing_eq_false_iff (row : List String) (hlen : row.length ≤ 3) :
    headersMissing row = false ↔ row = headerRow := by
  match row, hlen with
  | [], _ => simp [headersMissing, headerRow]
  | [a], _ => simp [headersMissing, headerRow]
  | [a, b], _ => simp [headersMissing, headerRow]
  | [a, b, c], _ => simp [headersMissing, headerRow, and_assoc]
  | _ :: _ :: _ :: _ :: _, h => simp at h

/-- C9: with a Sheets service that answers, and for the header row read from
`A1:C1` (at most three cells; no row at all for an empty sheet), the sink makes
no header write when the row is `["Title", "Body", "Timestamp"]` and otherwise
exactly one, of that row, before the append; in both cases it appends exactly
one row, `[title, body, timestamp]`. -/
theorem addNote_header_once (S : Sheets) (values : Option (List (List String)))
    (row : List String) (title body : JSValue) (timestamp : String)
    (hauth : S.authOk = true) (hupdate : S.updateOk = true) (happend : S.appendOk = true)
    (hget : S.getResult = some values)
    (hrow : (values = none ∧ row = []) ∨ ∃ more, values = some (row :: more))
    (hlen : row.length ≤ 3) :
    (row = ["Title", "Body", "Timestamp"] →
      addNoteToGoogleSheets S title body timestamp
        = ([Effect.getClient, Effect.valuesGet "Sheet2!A1:C1",
            Effect.valuesAppend "Sheet2!A2" [[title, body, .str timestamp]]], true)) ∧
    (row ≠ ["Title", "Body", "Timestamp"] →
      addNoteToGoogleSheets S title body timestamp
        = ([Effect.getClient, Effect.valuesGet "Sheet2!A1:C1",
            Effect.valuesUpdate "Sheet2!A1" [["Title", "Body", "Timestamp"]],
            Effect.valuesAppend "Sheet2!A2" [[title, body, .str timestamp]]], true)) := by
  have hiff := headersMissing_eq_false_iff row hlen
  have hsink : addNoteToGoogleSheets S title body timestamp
      = ([Effect.getClient, Effect.valuesGet "Sheet2!A1:C1"]
          ++ (if headersMissing row then [Effect.valuesUpdate "Sheet2!A1" [headerRow]] else [])
          ++ [Effect.valuesAppend "Sheet2!A2" [[title, body, .str timestamp]]], true) := by
    rcases hrow with ⟨hv, hr⟩ | ⟨more, hv⟩
    · subst hv hr
      simp [addNoteToGoogleSheets, hauth, hupdate, happend, hget]
    · subst hv
      simp [addNoteToGoogleSheets, hauth, hupdate, happend, hget]
  constructor
  · intro h
    have hm : headersMissing row = false := hiff.mpr h
    rw [hsink, hm]
    simp
  · intro h
    have hm : headersMissing row = true := by
      cases hc : headersMissing row with
      | true => rfl
      | false => exact absurd (hiff.mp hc) h
    rw [hsink, hm]
    simp [headerRow]

/-- C9, on an empty sheet: one header write, then the append. -/
theorem addNote_header_once_witness :
    addNoteToGoogleSheets emptySheet (.str "Groceries") (.str "buy milk") "12/04/2024, 14:30:00"
      = ([Effect.getClient, Effect.valuesGet "Sheet2!A1:C1",
          Effect.valuesUpdate "Sheet2!A1" [["Title", "Body", "Timestamp"]],
          Effect.valuesAppend "Sheet2!A2"
            [[.str "Groceries", .str "buy milk", .str "12/04/2024, 14:30:00"]]], true) :=
  (addNote_header_once emptySheet none [] (.str "Groceries") (.str "buy milk")
    "12/04/2024, 14:30:00" rfl rfl rfl rfl (Or.inl ⟨rfl, rfl⟩) (by decide)).2 (by decide)

end ChatRelay
